import Mathlib

/-!
Shallow embedding of `psidata/abr.py`: the argument-keyed persistent result
cache (`cache`), the epoch rejection pipeline (`ABRFile._apply_reject`),
recording construction (`ABRFile.__init__`), and the superset merge layer
(`ABRSupersetFile`).  Machine floats are modelled as an inductive carrying
rationals plus the IEEE specials (nan, +inf, -inf); tables are lists of rows
of such values.  Python's `x is np.inf` identity test is modelled by
distinguishing the `np.inf` sentinel object from every other float object
(including other infinite-valued floats, e.g. those read back from a pandas
table or produced by a fresh `float` call).
-/

/-- Model of a NumPy/pandas float cell value: NaN, plus/minus infinity, or a
finite value (finite doubles embedded as rationals). -/
inductive PFloat : Type where
  | nan : PFloat
  | inf : PFloat
  | ninf : PFloat
  | fin (q : ℚ) : PFloat
deriving DecidableEq, Repr

/-- True exactly on the NaN value (pandas `dropna` keys on this). -/
def PFloat.isNan : PFloat → Bool
  | .nan => true
  | _ => false

/-- IEEE-style strict less-than on float values: any comparison with NaN is
false; `-inf < x` for every non-NaN `x` other than `-inf`; `x < inf` for
every finite `x`; finite values compare as rationals. -/
def pfLt : PFloat → PFloat → Bool
  | .nan, _ => false
  | _, .nan => false
  | .ninf, .ninf => false
  | .ninf, _ => true
  | _, .ninf => false
  | .inf, _ => false
  | .fin _, .inf => true
  | .fin a, .fin b => decide (a < b)

/-- `result.dropna()`: drop every row containing at least one NaN sample. -/
def dropnaT (t : List (List PFloat)) : List (List PFloat) :=
  t.filter fun r => r.all fun v => !v.isNan

/-- One row of the (prefix-normalized) `erp_metadata` table: the
`reject_threshold` column is always present, `reject_mode` may be absent
(metadata written before that column existed), modelled as `Option`. -/
structure MetaRow : Type where
  reject_threshold : PFloat
  reject_mode : Option String
deriving DecidableEq, Repr

/-- A reject-threshold float object as seen by the Python identity test
`reject_threshold is not np.inf`: either the interned `np.inf` module
attribute itself, or any other float object (`val x`), which may well have
an infinite value `x` — e.g. an infinity read out of a pandas table as a
fresh `np.float64`, which is a different object from `np.inf`. -/
inductive RejectThreshold : Type where
  | npInf : RejectThreshold
  | val (x : PFloat) : RejectThreshold
deriving DecidableEq, Repr

/-- Body of `_apply_reject` after threshold/mode resolution: `np.inf` object
identity skips rejection entirely; `"absolute"` keeps rows all of whose
samples satisfy `v < x`; `"amplitude"` raises `NotImplementedError`; any
other mode string falls through with no row removed. -/
def rejectStep (result : List (List PFloat)) (th : RejectThreshold)
    (mode : String) : Except String (List (List PFloat)) :=
  match th with
  | .npInf => .ok result
  | .val x =>
      if mode == "absolute" then
        .ok (result.filter fun r => r.all fun v => pfLt v x)
      else if mode == "amplitude" then
        .error "NotImplementedError"
      else
        .ok result

/-- `ABRFile._apply_reject(result, reject_threshold, reject_mode)`.  The
table is first `dropna`-ed; a `None` threshold (the `Option.none` sentinel)
is replaced by the first metadata row's `reject_threshold` (a fresh float
object, hence `RejectThreshold.val`) and the mode by that row's
`reject_mode`, defaulting to `"absolute"` when the column is absent; an
empty metadata table makes `erp_metadata.loc[0]` raise. -/
def applyReject (erp_metadata : List MetaRow) (result : List (List PFloat))
    (reject_threshold : Option RejectThreshold) (reject_mode : String) :
    Except String (List (List PFloat)) :=
  match reject_threshold with
  | none =>
      match erp_metadata.head? with
      | none => .error "KeyError: 0"
      | some row =>
          rejectStep (dropnaT result) (.val row.reject_threshold)
            (row.reject_mode.getD "absolute")
  | some th => rejectStep (dropnaT result) th reject_mode

example :
    applyReject [] [[PFloat.fin (-5)]] (some (.val (.fin 1))) "absolute"
      = .ok [[PFloat.fin (-5)]] := rfl

example :
    applyReject [] [[PFloat.fin 2], [PFloat.fin 0, PFloat.nan]]
      (some (.val (.fin 1))) "absolute" = .ok [] := rfl

example :
    applyReject [⟨PFloat.inf, some "amplitude"⟩] [[PFloat.fin 0]] none
      "absolute" = .error "NotImplementedError" := rfl

example :
    applyReject [] [[PFloat.inf]] (some (.val PFloat.inf)) "absolute"
      = .ok [] := rfl

example :
    applyReject [] [[PFloat.fin 3]] (some .npInf) "amplitude"
      = .ok [[PFloat.fin 3]] := rfl

/-- Model of a Python argument value appearing in an extraction call: `None`,
a bool, an int, a float (finite doubles as rationals), or a str.  These are
the kinds of values the four extraction operations accept. -/
inductive PyVal : Type where
  | none : PyVal
  | bool (b : Bool) : PyVal
  | int (n : ℤ) : PyVal
  | float (q : ℚ) : PyVal
  | str (s : String) : PyVal
deriving DecidableEq, Repr

/-- Deterministic rendering of a float value, standing in for Python's
shortest-round-trip `repr` of a double (both are injective functions of the
value and contain no comma). -/
def ratStr (q : ℚ) : String :=
  toString q.num ++ "/" ++ toString q.den

/-- Python `str(v)` as used by the f-string `f'{k}={v}'` in `cache.wrapper`:
`None` renders as "None", bools as "True"/"False", ints and floats via their
repr, and a str renders as its own characters (no quotes). -/
def pyStr : PyVal → String
  | .none => "None"
  | .bool true => "True"
  | .bool false => "False"
  | .int n => toString n
  | .float q => ratStr q
  | .str s => s

/-- Cache-entry file name: `f'{name} {file_params}.pkl'`. -/
def keyName (opName file_params : String) : String :=
  opName ++ " " ++ file_params ++ ".pkl"

/-- Outcome of one wrapped call: the returned table, the cache directory
contents afterwards, and whether the underlying operation was invoked. -/
structure CacheResult (β : Type) : Type where
  result : β
  store : List (String × β)
  invoked : Bool
deriving Repr

/-- The `cache` decorator's `wrapper`: derive the entry name from the
operation name and the rendered post-default arguments; if `refresh_cache`
is unset and an entry exists, unpickle and return it without invoking the
operation; otherwise invoke the operation, write the entry, and return the
result.  The cache directory is a finite map from file name to pickled
table, newest entry first. -/
def cacheCall {α β : Type} (f : α → β) (render : α → String)
    (opName : String) (store : List (String × β)) (refresh_cache : Bool)
    (a : α) : CacheResult β :=
  let file_name := keyName opName (render a)
  match refresh_cache, store.lookup file_name with
  | false, some r => ⟨r, store, false⟩
  | _, _ => ⟨f a, (file_name, f a) :: store, true⟩

/-- Effective (post-default) argument set of one `get_epochs` call, fields
in signature order; `inspect.Signature.bind` + `apply_defaults` guarantees
every field is populated. -/
structure GetEpochsArgs : Type where
  offset : PyVal
  duration : PyVal
  detrend : PyVal
  reject_threshold : PyVal
  reject_mode : PyVal
  columns : PyVal
deriving DecidableEq, Repr

/-- Declared defaults of `get_epochs(offset=0, duration=8.5e-3,
detrend='constant', reject_threshold=None, reject_mode='absolute',
columns='auto')`. -/
def getEpochsDefaults : GetEpochsArgs :=
  ⟨.int 0, .float (mkRat 85 10000), .str "constant", .none, .str "absolute",
    .str "auto"⟩

/-- `file_params` for `get_epochs`: the ordered `k=v` rendering of every
bound argument except `self`, comma-joined. -/
def GetEpochsArgs.render (a : GetEpochsArgs) : String :=
  String.intercalate ", "
    ["offset=" ++ pyStr a.offset,
     "duration=" ++ pyStr a.duration,
     "detrend=" ++ pyStr a.detrend,
     "reject_threshold=" ++ pyStr a.reject_threshold,
     "reject_mode=" ++ pyStr a.reject_mode,
     "columns=" ++ pyStr a.columns]

/-- Effective argument set of one `get_random_segments(n, offset=0,
duration=8.5e-3, detrend='constant', reject_threshold=None,
reject_mode='absolute')` call. -/
structure GetRandomSegmentsArgs : Type where
  n : PyVal
  offset : PyVal
  duration : PyVal
  detrend : PyVal
  reject_threshold : PyVal
  reject_mode : PyVal
deriving DecidableEq, Repr

/-- `file_params` for `get_random_segments`. -/
def GetRandomSegmentsArgs.render (a : GetRandomSegmentsArgs) : String :=
  String.intercalate ", "
    ["n=" ++ pyStr a.n,
     "offset=" ++ pyStr a.offset,
     "duration=" ++ pyStr a.duration,
     "detrend=" ++ pyStr a.detrend,
     "reject_threshold=" ++ pyStr a.reject_threshold,
     "reject_mode=" ++ pyStr a.reject_mode]

/-- Effective argument set of one `get_epochs_filtered(filter_lb=300,
filter_ub=3000, filter_order=1, offset=-1e-3, duration=10e-3,
detrend='constant', pad_duration=10e-3, reject_threshold=None,
reject_mode='absolute', columns='auto')` call. -/
structure GetEpochsFilteredArgs : Type where
  filter_lb : PyVal
  filter_ub : PyVal
  filter_order : PyVal
  offset : PyVal
  duration : PyVal
  detrend : PyVal
  pad_duration : PyVal
  reject_threshold : PyVal
  reject_mode : PyVal
  columns : PyVal
deriving DecidableEq, Repr

/-- `file_params` for `get_epochs_filtered`. -/
def GetEpochsFilteredArgs.render (a : GetEpochsFilteredArgs) : String :=
  String.intercalate ", "
    ["filter_lb=" ++ pyStr a.filter_lb,
     "filter_ub=" ++ pyStr a.filter_ub,
     "filter_order=" ++ pyStr a.filter_order,
     "offset=" ++ pyStr a.offset,
     "duration=" ++ pyStr a.duration,
     "detrend=" ++ pyStr a.detrend,
     "pad_duration=" ++ pyStr a.pad_duration,
     "reject_threshold=" ++ pyStr a.reject_threshold,
     "reject_mode=" ++ pyStr a.reject_mode,
     "columns=" ++ pyStr a.columns]

/-- Effective argument set of one `get_random_segments_filtered(n,
filter_lb=300, filter_ub=3000, filter_order=1, offset=-1e-3,
duration=10e-3, detrend='constant', pad_duration=10e-3,
reject_threshold=None, reject_mode='absolute')` call. -/
structure GetRandomSegmentsFilteredArgs : Type where
  n : PyVal
  filter_lb : PyVal
  filter_ub : PyVal
  filter_order : PyVal
  offset : PyVal
  duration : PyVal
  detrend : PyVal
  pad_duration : PyVal
  reject_threshold : PyVal
  reject_mode : PyVal
deriving DecidableEq, Repr

/-- `file_params` for `get_random_segments_filtered`. -/
def GetRandomSegmentsFilteredArgs.render
    (a : GetRandomSegmentsFilteredArgs) : String :=
  String.intercalate ", "
    ["n=" ++ pyStr a.n,
     "filter_lb=" ++ pyStr a.filter_lb,
     "filter_ub=" ++ pyStr a.filter_ub,
     "filter_order=" ++ pyStr a.filter_order,
     "offset=" ++ pyStr a.offset,
     "duration=" ++ pyStr a.duration,
     "detrend=" ++ pyStr a.detrend,
     "pad_duration=" ++ pyStr a.pad_duration,
     "reject_threshold=" ++ pyStr a.reject_threshold,
     "reject_mode=" ++ pyStr a.reject_mode]

/-- What `BcolzRecording.__init__` (external storage layer) exposes of a
storage location to `ABRFile.__init__`: the names of the carrays and
ctables present there. -/
structure BcolzRecording : Type where
  carray_names : List String
  ctable_names : List String
deriving DecidableEq, Repr

/-- A successfully constructed `ABRFile` wraps its validated location. -/
structure ABRFile : Type where
  recording : BcolzRecording
deriving DecidableEq, Repr

/-- `ABRFile.__init__`: raise `ValueError('Missing eeg data')` when no
carray named `eeg` exists, then `ValueError('Missing erp metadata')` when
no ctable named `erp_metadata` exists; otherwise construction succeeds. -/
def ABRFile.init (recording : BcolzRecording) : Except String ABRFile :=
  if "eeg" ∉ recording.carray_names then .error "Missing eeg data"
  else if "erp_metadata" ∉ recording.ctable_names then
    .error "Missing erp metadata"
  else .ok ⟨recording⟩

/-- One entry of `os.listdir(base_folder)` as seen by
`ABRSupersetFile.from_folder`: its name, whether `os.path.isdir` holds, and
the storage contents found at that path. -/
structure DirEntry : Type where
  name : String
  isDir : Bool
  loc : BcolzRecording
deriving DecidableEq, Repr

/-- The list comprehension `[ABRFile(f) for f in base_folders]` in
`ABRSupersetFile.__init__`: construct each recording left to right; the
first construction error aborts the whole comprehension and propagates. -/
def buildRecordings : List DirEntry → Except String (List ABRFile)
  | [] => .ok []
  | e :: rest =>
      match ABRFile.init e.loc with
      | .error err => .error err
      | .ok fh =>
          match buildRecordings rest with
          | .error err => .error err
          | .ok fhs => .ok (fh :: fhs)

/-- `ABRSupersetFile.from_folder(base_folder)`: list the directory, keep
only entries that are directories, and construct the superset from them
(via `ABRSupersetFile.__init__`). -/
def ABRSupersetFile.from_folder (entries : List DirEntry) :
    Except String (List ABRFile) :=
  buildRecordings (entries.filter fun e => e.isDir)

/-- Rows of constituent tables tagged with their constituent's ordinal,
starting at `i`; models `pd.concat(result_set, keys=range(len(...)),
names=['file'])`, which stacks the tables in order and prepends the key as
an outer `file` index level. -/
def tagFrom {β : Type} (i : ℕ) : List (List β) → List (ℕ × β)
  | [] => []
  | t :: rest => (t.map fun r => (i, r)) ++ tagFrom (i + 1) rest

/-- `ABRSupersetFile._merge_results`: concatenate the per-constituent
result tables, keying each with its constituent's ordinal position. -/
def merge_results {β : Type} (result_set : List (List β)) : List (ℕ × β) :=
  tagFrom 0 result_set

/-- A fanned-out superset operation: invoke the same operation (same-named,
identical arguments, already applied) on every constituent in order and
merge the results. -/
def supersetOp {ρ β : Type} (fhs : List ρ) (op : ρ → List β) :
    List (ℕ × β) :=
  merge_results (fhs.map op)

example :
    supersetOp [[(10 : ℕ)], [20, 30], []] id
      = [(0, 10), (1, 20), (1, 30)] := rfl

example : GetEpochsArgs.render getEpochsDefaults
    = "offset=0, duration=17/2000, detrend=constant, reject_threshold=None, reject_mode=absolute, columns=auto" := by decide

example :
    GetEpochsArgs.render
        { getEpochsDefaults with reject_threshold := PyVal.str "None" }
      = GetEpochsArgs.render getEpochsDefaults := rfl

theorem rejectStep_ok_length (res : List (List PFloat))
    (th : RejectThreshold) (m : String) (l : List (List PFloat))
    (h : rejectStep res th m = .ok l) : l.length ≤ res.length := by
  cases th with
  | npInf =>
      simp only [rejectStep, Except.ok.injEq] at h
      subst h; exact le_refl _
  | val x =>
      simp only [rejectStep] at h
      split at h
      · simp only [Except.ok.injEq] at h
        subst h; exact List.length_filter_le _ _
      · split at h
        · exact absurd h (by simp)
        · simp only [Except.ok.injEq] at h
          subst h; exact le_refl _

/-- C3: in absolute mode with a finite explicit threshold, the code keeps
exactly the rows all of whose samples satisfy the SIGNED comparison
`v < T`; a row survives iff every sample (not every sample magnitude) is
strictly below the threshold. -/
theorem C3_absolute_signed_rejection (md : List MetaRow)
    (t : List (List PFloat)) (q : ℚ) :
    applyReject md t (some (.val (.fin q))) "absolute"
      = .ok ((dropnaT t).filter fun r => r.all fun v => pfLt v (.fin q))
    ∧ ∀ r : List PFloat,
        (r ∈ (dropnaT t).filter fun r => r.all fun v => pfLt v (.fin q))
          ↔ r ∈ dropnaT t ∧ (r.all fun v => pfLt v (.fin q)) = true := by
  constructor
  · rfl
  · intro r; exact List.mem_filter

/-- C3 fails as stated: with threshold 1 the row `[-5]` has a sample of
magnitude 5 ≥ 1, so the claim requires it to be removed, but the code keeps
it because the signed value -5 is < 1. -/
theorem C3_magnitude_counterexample :
    applyReject [] [[PFloat.fin (-5)]] (some (.val (.fin 1))) "absolute"
        = .ok [[PFloat.fin (-5)]]
    ∧ (1 : ℚ) ≤ |(-5 : ℚ)| := by
  exact ⟨rfl, by norm_num⟩

/-- C3 witness: concrete instantiation of the signed-comparison theorem. -/
theorem C3_absolute_signed_witness :
    applyReject [] [[PFloat.fin (-5)], [PFloat.fin 2]]
        (some (.val (.fin 1))) "absolute"
      = .ok ((dropnaT [[PFloat.fin (-5)], [PFloat.fin 2]]).filter
          fun r => r.all fun v => pfLt v (.fin 1)) :=
  (C3_absolute_signed_rejection [] [[PFloat.fin (-5)], [PFloat.fin 2]] 1).1

/-- C4: an unspecified (None) threshold resolves to the first metadata
row's `reject_threshold`, and the mode to that row's `reject_mode`
(defaulting to "absolute" when the column is absent); the call is then
identical to an explicit call with those resolved values, whatever mode
argument the None-threshold call passed. -/
theorem C4_threshold_fallback (md : List MetaRow) (t : List (List PFloat))
    (row : MetaRow) (mode : String) (h : md.head? = some row) :
    applyReject md t none mode
      = applyReject md t (some (.val row.reject_threshold))
          (row.reject_mode.getD "absolute") := by
  simp only [applyReject, h]

/-- C4 witness: with first-row threshold 2 and recorded mode "absolute",
the None-threshold call (even one passing mode "amplitude") equals the
explicit call. -/
theorem C4_threshold_fallback_witness :
    applyReject [⟨PFloat.fin 2, some "absolute"⟩]
        [[PFloat.fin 1], [PFloat.fin 3]] none "amplitude"
      = applyReject [⟨PFloat.fin 2, some "absolute"⟩]
          [[PFloat.fin 1], [PFloat.fin 3]]
          (some (.val (PFloat.fin 2))) "absolute" :=
  C4_threshold_fallback _ _ ⟨PFloat.fin 2, some "absolute"⟩ "amplitude" rfl

/-- C5 fails as stated: when the explicit threshold is the `np.inf` object
itself, the `is not np.inf` identity test skips the whole rejection block,
so an "amplitude"-mode call returns normally instead of raising. -/
theorem C5_npinf_amplitude_counterexample :
    applyReject [] [[PFloat.fin 0]] (some .npInf) "amplitude"
      = .ok [[PFloat.fin 0]] := rfl

/-- C5 amended: amplitude mode raises NotImplementedError for every
resolved threshold that is not the `np.inf` object itself — every
explicitly-passed non-`np.inf` float, and every metadata-resolved
threshold whose recorded mode is "amplitude"; when the threshold is the
`np.inf` object, rejection is skipped entirely and no error is raised. -/
theorem C5_amplitude_raises :
    (∀ (md : List MetaRow) (t : List (List PFloat)) (x : PFloat),
        applyReject md t (some (.val x)) "amplitude"
          = .error "NotImplementedError")
    ∧ (∀ (md : List MetaRow) (t : List (List PFloat)) (row : MetaRow)
          (m : String), md.head? = some row →
          row.reject_mode = some "amplitude" →
          applyReject md t none m = .error "NotImplementedError")
    ∧ (∀ (md : List MetaRow) (t : List (List PFloat)) (m : String),
        applyReject md t (some .npInf) m = .ok (dropnaT t)) := by
  refine ⟨fun md t x => rfl, ?_, fun md t m => rfl⟩
  intro md t row m h1 h2
  simp only [applyReject, h1, h2]
  rfl

/-- C5 witness: metadata-resolved amplitude mode raises. -/
theorem C5_amplitude_raises_witness :
    applyReject [⟨PFloat.fin 1, some "amplitude"⟩] [[PFloat.fin 0]] none
        "absolute" = .error "NotImplementedError" :=
  C5_amplitude_raises.2.1 [⟨PFloat.fin 1, some "amplitude"⟩]
    [[PFloat.fin 0]] ⟨PFloat.fin 1, some "amplitude"⟩ "absolute" rfl rfl

/-- C6 fails as stated: an infinite threshold resolved from metadata is a
fresh float object, not `np.inf`, so rejection is NOT skipped — in
amplitude mode it raises instead of removing no rows, and in absolute mode
an (infinite-valued) threshold object removes a row containing a `+inf`
sample because `inf < inf` is false. -/
theorem C6_infinite_threshold_counterexample :
    applyReject [⟨PFloat.inf, some "amplitude"⟩] [[PFloat.fin 0]] none
        "absolute" = .error "NotImplementedError"
    ∧ applyReject [] [[PFloat.inf]] (some (.val PFloat.inf)) "absolute"
        = .ok [] := ⟨rfl, rfl⟩

/-- C6 amended: the filter never increases row count; when the threshold is
the `np.inf` object itself, rejection is skipped in every mode and the
output is exactly the input minus the rows containing a missing sample. -/
theorem C6_monotonicity_npinf_skip :
    (∀ (md : List MetaRow) (t : List (List PFloat))
        (rt : Option RejectThreshold) (rm : String)
        (l : List (List PFloat)),
        applyReject md t rt rm = .ok l → l.length ≤ t.length)
    ∧ (∀ (md : List MetaRow) (t : List (List PFloat)) (rm : String),
        applyReject md t (some .npInf) rm = .ok (dropnaT t))
    ∧ (∀ t : List (List PFloat),
        (dropnaT t).length + (t.countP fun r => r.any fun v => v.isNan)
          = t.length) := by
  refine ⟨?_, fun md t rm => rfl, ?_⟩
  · intro md t rt rm l h
    have hd : (dropnaT t).length ≤ t.length := List.length_filter_le _ _
    cases rt with
    | some th =>
        simp only [applyReject] at h
        exact le_trans (rejectStep_ok_length _ _ _ _ h) hd
    | none =>
        cases hmd : md.head? with
        | none => simp [applyReject, hmd] at h
        | some row =>
            simp only [applyReject, hmd] at h
            exact le_trans (rejectStep_ok_length _ _ _ _ h) hd
  · intro t
    induction t with
    | nil => rfl
    | cons r t ih =>
        by_cases h : (r.all fun v => !v.isNan) = true
        · have h2 : (r.any fun v => v.isNan) = false := by
            rw [List.any_eq_false]
            intro x hx
            simpa using List.all_eq_true.mp h x hx
          simp only [dropnaT] at ih
          simp [dropnaT, List.filter_cons, h, List.countP_cons, h2]
          omega
        · have h2 : (r.any fun v => v.isNan) = true := by
            simp only [List.all_eq_true] at h
            push_neg at h
            obtain ⟨x, hx, hnx⟩ := h
            exact List.any_eq_true.mpr ⟨x, hx, by simpa using hnx⟩
          simp only [dropnaT] at ih
          simp [dropnaT, List.filter_cons, h, List.countP_cons, h2]
          omega

/-- C6 witness: a successful absolute-mode call's output is no longer than
its input. -/
theorem C6_monotonicity_witness :
    ([[PFloat.fin 0]] : List (List PFloat)).length
      ≤ ([[PFloat.fin 5], [PFloat.fin 0]] : List (List PFloat)).length :=
  C6_monotonicity_npinf_skip.1 [] [[PFloat.fin 5], [PFloat.fin 0]]
    (some (.val (.fin 1))) "absolute" [[PFloat.fin 0]] rfl

/-- C10: with an explicitly supplied (non-None) threshold and mode, the
filter result is the same function of the input table for any two metadata
tables — the metadata is consulted only on the None branch. -/
theorem C10_metadata_noninterference (md1 md2 : List MetaRow)
    (t : List (List PFloat)) (th : RejectThreshold) (m : String) :
    applyReject md1 t (some th) m = applyReject md2 t (some th) m := rfl

/-- C10 witness: radically different metadata, identical explicit-call
results. -/
theorem C10_metadata_noninterference_witness :
    applyReject [⟨PFloat.inf, some "amplitude"⟩] [[PFloat.fin 7]]
        (some (.val (.fin 3))) "absolute"
      = applyReject [] [[PFloat.fin 7]] (some (.val (.fin 3)))
          "absolute" :=
  C10_metadata_noninterference [⟨PFloat.inf, some "amplitude"⟩] []
    [[PFloat.fin 7]] (.val (.fin 3)) "absolute"

/-- C8: recording construction succeeds exactly when both the `eeg` carray
and the `erp_metadata` ctable are present; a missing EEG array raises
"Missing eeg data", a present EEG array with missing metadata raises
"Missing erp metadata", and with both present the Recording is returned. -/
theorem C8_construction_validity (recording : BcolzRecording) :
    ((∃ fh, ABRFile.init recording = Except.ok fh)
        ↔ "eeg" ∈ recording.carray_names
          ∧ "erp_metadata" ∈ recording.ctable_names)
    ∧ ("eeg" ∉ recording.carray_names →
        ABRFile.init recording = .error "Missing eeg data")
    ∧ ("eeg" ∈ recording.carray_names →
        "erp_metadata" ∉ recording.ctable_names →
        ABRFile.init recording = .error "Missing erp metadata")
    ∧ ("eeg" ∈ recording.carray_names →
        "erp_metadata" ∈ recording.ctable_names →
        ABRFile.init recording = .ok ⟨recording⟩) := by
  unfold ABRFile.init
  by_cases h1 : "eeg" ∈ recording.carray_names
  · by_cases h2 : "erp_metadata" ∈ recording.ctable_names
    · simp [h1, h2]
    · simp [h1, h2]
  · simp [h1]

/-- C8 witness: both names present yields a constructed recording. -/
theorem C8_construction_witness :
    ABRFile.init ⟨["eeg"], ["erp_metadata"]⟩
      = .ok ⟨⟨["eeg"], ["erp_metadata"]⟩⟩ :=
  (C8_construction_validity ⟨["eeg"], ["erp_metadata"]⟩).2.2.2 (by simp)
    (by simp)

/-- C9 fails as stated: a non-directory entry is indeed skipped, but a
subdirectory whose recording construction fails makes the whole
`from_folder` construction raise — the failure propagates instead of the
candidate being skipped. -/
theorem C9_skip_failed_counterexample :
    ABRSupersetFile.from_folder
        [⟨"notes.txt", false, ⟨["eeg"], ["erp_metadata"]⟩⟩,
         ⟨"sub1", true, ⟨[], []⟩⟩]
      = .error "Missing eeg data" := rfl

theorem buildRecordings_ok_iff (l : List DirEntry) :
    (∃ fhs, buildRecordings l = Except.ok fhs)
      ↔ ∀ e ∈ l, ∃ fh, ABRFile.init e.loc = Except.ok fh := by
  induction l with
  | nil => simp [buildRecordings]
  | cons e rest ih =>
      constructor
      · rintro ⟨fhs, hf⟩ e2 he2
        cases hme : ABRFile.init e.loc with
        | error err => simp [buildRecordings, hme] at hf
        | ok fh =>
            rcases List.mem_cons.mp he2 with rfl | hmem
            · exact ⟨fh, hme⟩
            · cases hbr : buildRecordings rest with
              | error err => simp [buildRecordings, hme, hbr] at hf
              | ok fhs2 => exact ih.mp ⟨fhs2, hbr⟩ e2 hmem
      · intro hall
        obtain ⟨fh, hfh⟩ := hall e (List.mem_cons_self e rest)
        obtain ⟨fhs, hfhs⟩ :=
          ih.mpr fun x hx => hall x (List.mem_cons_of_mem e hx)
        exact ⟨fh :: fhs, by simp [buildRecordings, hfh, hfhs]⟩

/-- C9 amended: `from_folder` keeps exactly the directory entries as
candidates (non-directories are skipped), and it constructs a Superset
exactly when every candidate's recording construction succeeds; a single
failing candidate makes the construction fail (the error propagates). -/
theorem C9_from_folder_propagates (entries : List DirEntry) :
    ABRSupersetFile.from_folder entries
        = buildRecordings (entries.filter fun e => e.isDir)
    ∧ ((∃ fhs, ABRSupersetFile.from_folder entries = Except.ok fhs)
        ↔ ∀ e ∈ entries.filter (fun e => e.isDir),
            ∃ fh, ABRFile.init e.loc = Except.ok fh) :=
  ⟨rfl, buildRecordings_ok_iff _⟩

/-- C9 witness: with one skipped plain file and one valid subdirectory the
construction succeeds. -/
theorem C9_from_folder_witness :
    ∃ fhs, ABRSupersetFile.from_folder
        [⟨"notes.txt", false, ⟨[], []⟩⟩,
         ⟨"sub1", true, ⟨["eeg"], ["erp_metadata"]⟩⟩] = Except.ok fhs :=
  (C9_from_folder_propagates _).2.mpr (by
    intro e he
    have he2 : e ∈ [(⟨"sub1", true, ⟨["eeg"], ["erp_metadata"]⟩⟩ :
        DirEntry)] := he
    rw [List.mem_singleton] at he2
    subst he2
    exact ⟨⟨⟨["eeg"], ["erp_metadata"]⟩⟩, rfl⟩)

theorem tagFrom_length {β : Type} (ts : List (List β)) :
    ∀ i : ℕ, (tagFrom i ts).length = (ts.map List.length).sum := by
  induction ts with
  | nil => intro i; rfl
  | cons t rest ih =>
      intro i
      simp [tagFrom, ih (i + 1)]

theorem tagFrom_fst_bounds {β : Type} (ts : List (List β)) :
    ∀ (i : ℕ) (p : ℕ × β), p ∈ tagFrom i ts →
      i ≤ p.1 ∧ p.1 < i + ts.length := by
  induction ts with
  | nil => intro i p hp; exact absurd hp (by simp [tagFrom])
  | cons t rest ih =>
      intro i p hp
      simp only [tagFrom, List.mem_append, List.mem_map] at hp
      rcases hp with ⟨r, _, rfl⟩ | hp
      · simp
      · have := ih (i + 1) p hp
        simp only [List.length_cons]
        omega

theorem tagFrom_filter {β : Type} (ts : List (List β)) :
    ∀ (i j : ℕ) (h : j < ts.length),
      (tagFrom i ts).filter (fun p => p.1 == i + j)
        = (ts.get ⟨j, h⟩).map fun r => (i + j, r) := by
  induction ts with
  | nil => intro i j h; exact absurd h (by simp)
  | cons t rest ih =>
      intro i j h
      cases j with
      | zero =>
          simp only [tagFrom, List.filter_append, Nat.add_zero]
          have h1 : (t.map fun r => (i, r)).filter (fun p => p.1 == i)
              = t.map fun r => (i, r) := by
            rw [List.filter_map]
            simp [Function.comp_def]
          have h2 : (tagFrom (i + 1) rest).filter (fun p => p.1 == i)
              = [] := by
            rw [List.filter_eq_nil_iff]
            intro p hp
            have := (tagFrom_fst_bounds rest (i + 1) p hp).1
            simp only [beq_iff_eq]
            omega
          rw [h1, h2, List.append_nil]
          rfl
      | succ j2 =>
          simp only [tagFrom, List.filter_append]
          have h1 : (t.map fun r => (i, r)).filter
              (fun p => p.1 == i + (j2 + 1)) = [] := by
            rw [List.filter_eq_nil_iff]
            intro p hp
            simp only [List.mem_map] at hp
            obtain ⟨r, _, rfl⟩ := hp
            simp only [beq_iff_eq]
            omega
          have h3 : j2 < rest.length := by
            simp only [List.length_cons] at h
            omega
          have h2 := ih (i + 1) j2 h3
          have e : i + 1 + j2 = i + (j2 + 1) := by omega
          rw [e] at h2
          rw [h1, h2, List.nil_append]
          rfl

/-- C7: fanning an operation out over K constituents concatenates the K
per-constituent tables in order: the merged length is the sum of the
constituent lengths, every row's `file` key is some ordinal below K, and
the rows keyed with ordinal `j` are exactly constituent `j`'s table (in
order, each row tagged `j`). -/
theorem C7_superset_provenance {ρ β : Type} (fhs : List ρ)
    (op : ρ → List β) :
    supersetOp fhs op = merge_results (fhs.map op)
    ∧ (supersetOp fhs op).length
        = ((fhs.map fun fh => (op fh).length)).sum
    ∧ (∀ p ∈ supersetOp fhs op, p.1 < fhs.length)
    ∧ ∀ (j : ℕ) (h : j < fhs.length),
        (supersetOp fhs op).filter (fun p => p.1 == j)
          = (op (fhs.get ⟨j, h⟩)).map fun r => (j, r) := by
  refine ⟨rfl, ?_, ?_, ?_⟩
  · rw [supersetOp, merge_results, tagFrom_length]
    simp [Function.comp_def]
  · intro p hp
    have := (tagFrom_fst_bounds (fhs.map op) 0 p hp).2
    simpa using this
  · intro j h
    have h2 : j < (fhs.map op).length := by simpa using h
    have := tagFrom_filter (fhs.map op) 0 j h2
    simp only [Nat.zero_add] at this
    rw [supersetOp, merge_results, this]
    congr 1
    simp [List.get_eq_getElem]

/-- C7 witness: two constituents of sizes 1 and 2; the rows keyed 1 are
the second constituent's rows tagged 1. -/
theorem C7_superset_provenance_witness :
    (supersetOp [[(10 : ℕ)], [20, 30]] id).filter (fun p => p.1 == 1)
      = ([20, 30].map fun r => (1, r)) :=
  (C7_superset_provenance [[(10 : ℕ)], [20, 30]] id).2.2.2 1 (by decide)

theorem keyName_inj (n x y : String) (h : keyName n x = keyName n y) :
    x = y := by
  unfold keyName at h
  have hd := congrArg String.data h
  simp only [String.data_append] at hd
  exact String.ext (List.append_cancel_left (List.append_cancel_right hd))

theorem cacheCall_hit {α β : Type} (f : α → β) (render : α → String)
    (rn : String) (store : List (String × β)) (a : α) (r : β)
    (h : store.lookup (keyName rn (render a)) = some r) :
    cacheCall f render rn store false a = ⟨r, store, false⟩ := by
  simp only [cacheCall, h]

theorem cacheCall_miss {α β : Type} (f : α → β) (render : α → String)
    (rn : String) (store : List (String × β)) (a : α)
    (h : store.lookup (keyName rn (render a)) = none) :
    cacheCall f render rn store false a
      = ⟨f a, (keyName rn (render a), f a) :: store, true⟩ := by
  simp only [cacheCall, h]

theorem cacheCall_refresh {α β : Type} (f : α → β) (render : α → String)
    (rn : String) (store : List (String × β)) (a : α) :
    cacheCall f render rn store true a
      = ⟨f a, (keyName rn (render a), f a) :: store, true⟩ := by
  cases hl : store.lookup (keyName rn (render a)) <;> simp [cacheCall, hl]

/-- Effective argument set differing from the defaults only in the
threshold value: the Python string "None" instead of the None object. -/
def strNoneArgs : GetEpochsArgs :=
  { getEpochsDefaults with reject_threshold := PyVal.str "None" }

/-- Stand-in underlying extraction whose result depends on the threshold
argument, making key collisions observable in returned results. -/
def thresholdTable (a : GetEpochsArgs) : List PyVal :=
  [a.reject_threshold]

/-- C1 fails as stated: the key renders values with `str`, which is not
injective — `reject_threshold=None` (the None object) and
`reject_threshold="None"` (a string) are different effective argument sets
yet render to the same `file_params`, hence the same cache-entry name; the
second call then hits the first call's entry, performing no fresh
extraction and returning the other argument set's table. -/
theorem C1_cache_key_collision :
    getEpochsDefaults ≠ strNoneArgs
    ∧ GetEpochsArgs.render getEpochsDefaults
        = GetEpochsArgs.render strNoneArgs
    ∧ (cacheCall thresholdTable GetEpochsArgs.render "get_epochs"
        (cacheCall thresholdTable GetEpochsArgs.render "get_epochs" []
          false getEpochsDefaults).store false strNoneArgs).invoked = false
    ∧ (cacheCall thresholdTable GetEpochsArgs.render "get_epochs"
        (cacheCall thresholdTable GetEpochsArgs.render "get_epochs" []
          false getEpochsDefaults).store false strNoneArgs).result
      ≠ thresholdTable strNoneArgs := by
  refine ⟨by decide, by decide, by decide, by decide⟩

/-- C1 amended: the derived entry name is a deterministic function of the
effective argument set, so equal argument sets share an entry and the
second call performs no further extraction; argument sets whose RENDERED
parameter strings differ derive distinct names and each performs a fresh
extraction — but rendering is not injective on values (e.g. None versus the
string "None"), and argument sets that collide in rendering share one
entry. -/
theorem C1_cache_key_fidelity {α β : Type} (f : α → β)
    (render : α → String) (rn : String) (a b : α)
    (hne : render a ≠ render b) :
    ((cacheCall f render rn [] false a).invoked = true)
    ∧ ((cacheCall f render rn
          (cacheCall f render rn [] false a).store false a).invoked
        = false)
    ∧ ((cacheCall f render rn
          (cacheCall f render rn [] false a).store false a).result
        = (cacheCall f render rn [] false a).result)
    ∧ keyName rn (render a) ≠ keyName rn (render b)
    ∧ ((cacheCall f render rn
          (cacheCall f render rn [] false a).store false b).invoked
        = true) := by
  have hk : keyName rn (render a) ≠ keyName rn (render b) :=
    fun h => hne (keyName_inj rn _ _ h)
  have hbeq : (keyName rn (render b) == keyName rn (render a)) = false :=
    beq_eq_false_iff_ne.mpr fun h => hk h.symm
  have hc1 : cacheCall f render rn [] false a
      = ⟨f a, [(keyName rn (render a), f a)], true⟩ :=
    cacheCall_miss f render rn [] a rfl
  have hl2 : ([(keyName rn (render a), f a)] :
      List (String × β)).lookup (keyName rn (render a)) = some (f a) := by
    simp [List.lookup]
  have hl3 : ([(keyName rn (render a), f a)] :
      List (String × β)).lookup (keyName rn (render b)) = none := by
    simp [List.lookup, hbeq]
  refine ⟨by rw [hc1], ?_, ?_, hk, ?_⟩
  · rw [hc1, cacheCall_hit f render rn _ a (f a) hl2]
  · rw [hc1, cacheCall_hit f render rn _ a (f a) hl2]
  · rw [hc1, cacheCall_miss f render rn _ b hl3]

/-- C1 witness: the defaults and an offset-1 call render differently, so
the second performs a fresh extraction even right after the first. -/
theorem C1_cache_key_fidelity_witness :
    (cacheCall thresholdTable GetEpochsArgs.render "get_epochs"
        (cacheCall thresholdTable GetEpochsArgs.render "get_epochs" []
          false getEpochsDefaults).store false
        { getEpochsDefaults with offset := PyVal.int 1 }).invoked
      = true :=
  (C1_cache_key_fidelity thresholdTable GetEpochsArgs.render "get_epochs"
    getEpochsDefaults { getEpochsDefaults with offset := PyVal.int 1 }
    (by decide)).2.2.2.2

/-- C2 fails as stated: an entry left under the colliding name by the
defaults call is returned verbatim to the `reject_threshold="None"` call,
which is NOT the result of invoking the underlying operation on that
call's own arguments. -/
theorem C2_transparency_counterexample :
    (cacheCall thresholdTable GetEpochsArgs.render "get_epochs"
        [(keyName "get_epochs" (GetEpochsArgs.render getEpochsDefaults),
          thresholdTable getEpochsDefaults)] false strNoneArgs).result
      ≠ thresholdTable strNoneArgs := by decide

/-- C2 amended: whenever every pre-existing entry under the call's derived
name equals the call's direct result (as holds for entries written by
calls with the same rendered argument set), the wrapped call returns
exactly the direct result; and whenever an entry exists under the derived
name and the force-refresh flag is unset, the entry's value is returned
and the underlying operation is not invoked. -/
theorem C2_cache_transparency {α β : Type} (f : α → β)
    (render : α → String) (rn : String) (store : List (String × β))
    (refresh : Bool) (a : α)
    (hcoh : ∀ r, store.lookup (keyName rn (render a)) = some r →
      r = f a) :
    ((cacheCall f render rn store refresh a).result = f a)
    ∧ (∀ r, refresh = false →
        store.lookup (keyName rn (render a)) = some r →
          (cacheCall f render rn store refresh a).result = r
          ∧ (cacheCall f render rn store refresh a).invoked = false) := by
  cases refresh with
  | true =>
      refine ⟨by rw [cacheCall_refresh], ?_⟩
      intro _ h
      cases h
  | false =>
      cases hl : store.lookup (keyName rn (render a)) with
      | none =>
          refine ⟨by rw [cacheCall_miss f render rn store a hl], ?_⟩
          intro r _ hr
          exact absurd hr (fun h => Option.noConfusion h)
      | some r0 =>
          have h1 := cacheCall_hit f render rn store a r0 hl
          refine ⟨by rw [h1]; exact hcoh r0 hl, ?_⟩
          intro r _ hr
          injection hr with hr2
          subst hr2
          exact ⟨by rw [h1], by rw [h1]⟩

/-- C2 witness: a coherent store (its one entry is the defaults call's own
result) makes the wrapped call return the direct result. -/
theorem C2_cache_transparency_witness :
    (cacheCall thresholdTable GetEpochsArgs.render "get_epochs"
        [(keyName "get_epochs" (GetEpochsArgs.render getEpochsDefaults),
          thresholdTable getEpochsDefaults)] false
        getEpochsDefaults).result
      = thresholdTable getEpochsDefaults :=
  (C2_cache_transparency thresholdTable GetEpochsArgs.render "get_epochs"
    [(keyName "get_epochs" (GetEpochsArgs.render getEpochsDefaults),
      thresholdTable getEpochsDefaults)] false getEpochsDefaults
    (fun r hr => (Option.some.inj hr).symm)).1
